import Mathlib

set_option maxRecDepth 100000

/-!
Verification development for the ARGA traits-lists sync service.

The service watches a repository for newly pushed CSV files under
`imported_GoogleSheets/<listName>/`, uploads their content to a
list-management API, polls the asynchronous ingestion job, and reports to a
chat channel.  The definitions below are a shallow embedding of the
TypeScript sources (`lists.ts` / `github.ts` / `server.ts`): pure string and
list manipulations become Lean functions, network calls become explicit
oracle parameters, mutable module state becomes explicit state passing, and
thrown exceptions become `Except` / `Option` results.
-/

deriving instance DecidableEq for Except

namespace ArgaLists

/-! ## String primitives

JS string methods are embedded over the character list `String.data`, with
structural recursion (Lean's byte-position `String` API does not reduce in
the kernel).  `jsIncludes` is JS `includes` (substring test, `true` for the
empty needle); `jsSplitOnSlash` is JS `split('/')`; `jsTrim` strips
whitespace from both ends. -/

def containsSub (s sub : List Char) : Bool :=
  match s with
  | [] => sub.isEmpty
  | _ :: rest => sub.isPrefixOf s || containsSub rest sub

def splitChar (sep : Char) : List Char → List (List Char)
  | [] => [[]]
  | c :: rest =>
    let r := splitChar sep rest
    if c = sep then [] :: r
    else
      match r with
      | h :: t => (c :: h) :: t
      | [] => [[c]]

def jsStartsWith (s pre : String) : Bool := pre.data.isPrefixOf s.data

def jsEndsWith (s suf : String) : Bool := suf.data.isSuffixOf s.data

def jsIncludes (s sub : String) : Bool := containsSub s.data sub.data

def jsSplitOnSlash (s : String) : List String :=
  (splitChar '/' s.data).map String.mk

def jsTrim (s : String) : String :=
  String.mk (((s.data.dropWhile Char.isWhitespace).reverse.dropWhile
    Char.isWhitespace).reverse)

/-! ## Monitored-folder path filter (github.ts / server.ts)

`isImportedGoogleSheetsFile` mirrors
`filename.startsWith('imported_GoogleSheets/') && filename.includes('/') &&
(filename.endsWith('.csv') || filename.endsWith('.csv.gz'))`. -/

def isImportedGoogleSheetsFile (filename : String) : Bool :=
  jsStartsWith filename "imported_GoogleSheets/" &&
    jsIncludes filename "/" &&
    (jsEndsWith filename ".csv" || jsEndsWith filename ".csv.gz")

/-- `getParentFolderName`: `null` unless the filter accepts the path; then
split on `/`, and when there are at least three segments whose first is
`imported_GoogleSheets`, return the second (the list folder); else `null`. -/
def getParentFolderName (filename : String) : Option String :=
  if isImportedGoogleSheetsFile filename then
    match jsSplitOnSlash filename with
    | p0 :: p1 :: _ :: _ =>
      if p0 = "imported_GoogleSheets" then some p1 else none
    | _ => none
  else none

/-! ## Configuration mapping (drs.json)

A JS object with string keys is embedded as an association list in
iteration (insertion) order; `key in obj` and `obj[key]` become `lookupKey`
on the first matching entry. -/

def lookupKey (sec : List (String × String)) (k : String) : Option String :=
  match sec with
  | [] => none
  | (k', v) :: rest => if k' = k then some v else lookupKey rest k

def sectionKeys (sec : List (String × String)) : List String :=
  sec.map Prod.fst

structure DrMap where
  prod : List (String × String)
  test : List (String × String)
deriving Repr, DecidableEq

/-! ## Configuration diff (`compareDrMapSection`, github.ts)

Each `changes.push(...)` in the source appends one formatted string; we
embed the pushed entry as a `DrChange` and keep the exact source format in
`renderDrChange`, so list-level properties can be stated structurally. -/

inductive DrChange where
  | added (key value : String)
  | changed (key oldValue newValue : String)
  | removed (key value : String)
deriving Repr, DecidableEq

def DrChange.key : DrChange → String
  | .added k _ => k
  | .changed k _ _ => k
  | .removed k _ => k

def DrChange.isRemoval : DrChange → Bool
  | .removed _ _ => true
  | _ => false

/-- The exact strings pushed by the github.ts version of the function. -/
def renderDrChange : DrChange → String
  | .added k v => "Added: `" ++ k ++ "` → `" ++ v ++ "`"
  | .changed k w v => "Changed: `" ++ k ++ "` → `" ++ w ++ "` to `" ++ v ++ "`"
  | .removed k v => "Removed: `" ++ k ++ "` (was `" ++ v ++ "`)"

/-- First loop body: for an entry `(key, value)` of `newSection`,
`!(key in oldSection)` pushes "Added", `oldSection[key] !== value` pushes
"Changed", otherwise nothing. -/
def addedOrChanged (oldSection : List (String × String))
    (p : String × String) : Option DrChange :=
  match lookupKey oldSection p.1 with
  | none => some (.added p.1 p.2)
  | some w => if w ≠ p.2 then some (.changed p.1 w p.2) else none

/-- Second loop body: for an entry `(key, value)` of `oldSection`,
`!(key in newSection)` pushes "Removed". -/
def removedEntry (newSection : List (String × String))
    (p : String × String) : Option DrChange :=
  match lookupKey newSection p.1 with
  | none => some (.removed p.1 p.2)
  | some _ => none

/-- `compareDrMapSection(oldSection, newSection)`: one pass over
`Object.entries(newSection)` pushing additions and changes, then one pass
over `Object.entries(oldSection)` pushing removals. -/
def compareDrMapSection (oldSection newSection : List (String × String)) :
    List DrChange :=
  newSection.filterMap (addedOrChanged oldSection) ++
    oldSection.filterMap (removedEntry newSection)

/-! ## Credential cache (`getAccessToken`, lists.ts)

The mutable module variable `cachedToken` becomes an explicit state that is
threaded in and returned; the token-endpoint `fetch` becomes an oracle
value.  Times are in milliseconds, as `Int` (JS numbers; here only
comparisons and sums of epoch times occur). -/

structure CachedToken where
  access_token : String
  expires_at : Int
deriving Repr, DecidableEq

structure OAuth2TokenResponse where
  access_token : String
  token_type : String
  expires_in : Int
  scope : String
deriving Repr, DecidableEq

/-- Result of the single `fetch` to the OAuth2 token endpoint: HTTP status
metadata plus (when `ok`) the parsed JSON body. -/
structure TokenEndpointResponse where
  ok : Bool
  status : Nat
  statusText : String
  errorText : String
  body : OAuth2TokenResponse
deriving Repr, DecidableEq

/-- `new Error('Failed to fetch access token: ...')` carries the HTTP status,
status text and response body. -/
structure AuthFailure where
  status : Nat
  statusText : String
  responseBody : String
deriving Repr, DecidableEq

/-- 5-minute reuse buffer: `const bufferMs = 5 * 60 * 1000`. -/
def bufferMs : Int := 5 * 60 * 1000

/-- The fetch-a-new-token path of `getAccessToken` (lines 66–107): on a
non-ok response throw, leaving the cache as it was; on success overwrite the
cache with the new token and `now + expires_in * 1000` and return the token.
The `Bool` in the result records that a token fetch was issued. -/
def fetchNewToken (st : Option CachedToken) (now : Int)
    (resp : TokenEndpointResponse) :
    Except AuthFailure String × Option CachedToken × Bool :=
  if resp.ok then
    let newToken : CachedToken :=
      { access_token := resp.body.access_token
        expires_at := now + resp.body.expires_in * 1000 }
    (.ok resp.body.access_token, some newToken, true)
  else
    (.error ⟨resp.status, resp.statusText, resp.errorText⟩, st, true)

/-- `getAccessToken()`: reuse the cached token while
`now < cachedToken.expires_at - bufferMs`, otherwise fetch a new one. -/
def getAccessToken (st : Option CachedToken) (now : Int)
    (resp : TokenEndpointResponse) :
    Except AuthFailure String × Option CachedToken × Bool :=
  match st with
  | some t =>
    if now < t.expires_at - bufferMs then (.ok t.access_token, some t, false)
    else fetchNewToken st now resp
  | none => fetchNewToken st now resp

/-! ## Polling loop (`waitForIngestionCompletion`, lists.ts)

One attempt of the `while` body observes either a thrown error (token fetch
or transport failure, caught and warned about), a non-ok progress response
(warned about, `continue`), or a parsed progress body carrying `completed`.
The sequence of attempt observations is an oracle `Nat → PollAttempt`
(attempt `i+1` reads index `i`). -/

inductive PollAttempt where
  | thrown
  | httpFail (status : Nat)
  | progress (completed : Bool)
deriving Repr, DecidableEq

def PROGRESS_CHECK_INTERVAL : Nat := 5000

def MAX_PROGRESS_ATTEMPTS : Nat := 120

def MAX_WAIT_TIME_SECONDS : Nat :=
  MAX_PROGRESS_ATTEMPTS * (PROGRESS_CHECK_INTERVAL / 1000)

inductive PollOutcome where
  | completed (attempts : Nat)
  | timeout (attempts : Nat) (ceilingSeconds : Nat)
deriving Repr, DecidableEq

/-- Number of attempts the loop had issued when it produced this outcome. -/
def PollOutcome.attempts : PollOutcome → Nat
  | .completed n => n
  | .timeout n _ => n

/-- The `while (!completed && attempts < MAX_PROGRESS_ATTEMPTS)` loop, with
`attempts` the count so far and `fuel = MAX_PROGRESS_ATTEMPTS - attempts`
the remaining budget.  `completed` becomes true exactly when an attempt
observes `progress true`; every other observation (thrown error, non-ok
status, `completed = false`) leaves `completed` false and re-enters the
loop.  On exit with `completed` still false the source throws the
`TimeoutError` naming `MAX_WAIT_TIME_SECONDS` and `attempts`. -/
def pollFrom (resp : Nat → PollAttempt) : Nat → Nat → PollOutcome
  | attempts, 0 => .timeout attempts MAX_WAIT_TIME_SECONDS
  | attempts, fuel + 1 =>
    if resp attempts = .progress true then .completed (attempts + 1)
    else pollFrom resp (attempts + 1) fuel

def waitForIngestionCompletion (resp : Nat → PollAttempt) : PollOutcome :=
  pollFrom resp 0 MAX_PROGRESS_ATTEMPTS

/-! ## Ingestion pipeline (`reloadList`, lists.ts)

`reloadList` runs: acquire token (step 0) → resolve the dataResourceUid
from `drMap` (step 1) → `fetchSpeciesListId` (step 2) → `uploadFileContent`
(step 3) → `ingestFile` (step 4) → `waitForIngestionCompletion` (step 5).
Every thrown error aborts the remaining steps.  Network responses are
oracle fields of `PipelineEnv`; the token-endpoint result is modelled once
and reused by the per-stage `getAccessToken` calls (the cache makes those
return the same token within a run).  The run result also carries the trace
of list-management API calls actually issued, in order. -/

structure SpeciesListResponse where
  id : String
  dataResourceUid : String
  title : String
  version : Nat
  rowCount : Nat
deriving Repr, DecidableEq

/-- `validationErrors: string[] | null` of the upload JSON body. -/
structure UploadResponse where
  localFile : String
  rowCount : Nat
  validationErrors : Option (List String)
deriving Repr, DecidableEq

structure HttpMeta where
  ok : Bool
  status : Nat
  statusText : String
  errorText : String
deriving Repr, DecidableEq

inductive ApiStep where
  | metadata
  | upload
  | ingest
deriving Repr, DecidableEq

inductive PipelineError where
  | auth (status : Nat) (statusText responseBody : String)
  | unknownList (listName : String) (available : List String)
  | remoteApi (step : ApiStep) (status : Nat) (body : String)
  | validation (messages : List String)
  | timeout (attempts ceilingSeconds : Nat)
deriving Repr, DecidableEq

def PipelineError.isValidation : PipelineError → Bool
  | .validation _ => true
  | _ => false

/-- Calls against the list-management API (the OAuth2 token endpoint is a
separate host and is not a list-management call). -/
inductive ListApiCall where
  | speciesListFetch
  | uploadCall
  | ingestCall
  | progressCall
deriving Repr, DecidableEq

/-- Step 1 of `reloadList`: pick the partition by
`LISTS_API_ENDPOINT.includes('.test')`, look the folder up, and on a falsy
result throw the unknown-list error whose `Available folders:` part is
`Object.keys(drMap.test)` — the test partition, whatever the environment. -/
def resolveDataResourceUid (endpoint : String) (drMap : DrMap)
    (parentFolderName : String) : Except PipelineError String :=
  let sec := if jsIncludes endpoint ".test" then drMap.test else drMap.prod
  match lookupKey sec parentFolderName with
  | none => .error (.unknownList parentFolderName (sectionKeys drMap.test))
  | some uid =>
    if uid = "" then .error (.unknownList parentFolderName (sectionKeys drMap.test))
    else .ok uid

/-- `validationErrors.map((error, index) => `${index + 1}. ${error}`)`. -/
def numberedMessages (errs : List String) : List String :=
  errs.enum.map (fun p => toString (p.1 + 1) ++ ". " ++ p.2)

/-- `uploadFileContent` decision logic: non-ok HTTP status throws the
generic upload failure *before* the body is parsed; an ok status with a
non-empty `validationErrors` array throws the numbered validation error;
otherwise the `localFile` handle is returned. -/
def uploadFileContent (http : HttpMeta) (body : UploadResponse) :
    Except PipelineError String :=
  if http.ok then
    match body.validationErrors with
    | some errs =>
      if 0 < errs.length then .error (.validation (numberedMessages errs))
      else .ok body.localFile
    | none => .ok body.localFile
  else .error (.remoteApi .upload http.status http.errorText)

structure PipelineEnv where
  endpoint : String
  drMap : DrMap
  parentFolderName : String
  cachedToken : Option CachedToken
  now : Int
  tokenResp : TokenEndpointResponse
  metadataHttp : HttpMeta
  metadataBody : SpeciesListResponse
  uploadHttp : HttpMeta
  uploadBody : UploadResponse
  ingestHttp : HttpMeta
  pollResp : Nat → PollAttempt

/-- `reloadList` as a run over its oracle environment: the `Except` mirrors
the thrown-or-returned outcome, while the `List ListApiCall` records which
list-management endpoints were actually called, in order. -/
def reloadList (env : PipelineEnv) : Except PipelineError Unit × List ListApiCall :=
  match getAccessToken env.cachedToken env.now env.tokenResp with
  | (.error e, _, _) => (.error (.auth e.status e.statusText e.responseBody), [])
  | (.ok _, _, _) =>
    match resolveDataResourceUid env.endpoint env.drMap env.parentFolderName with
    | .error e => (.error e, [])
    | .ok _uid =>
      if env.metadataHttp.ok then
        match uploadFileContent env.uploadHttp env.uploadBody with
        | .error e => (.error e, [.speciesListFetch, .uploadCall])
        | .ok _localFile =>
          if env.ingestHttp.ok then
            match waitForIngestionCompletion env.pollResp with
            | .completed n =>
              (.ok (), [.speciesListFetch, .uploadCall, .ingestCall] ++
                List.replicate n .progressCall)
            | .timeout a c =>
              (.error (.timeout a c), [.speciesListFetch, .uploadCall, .ingestCall] ++
                List.replicate a .progressCall)
          else
            (.error (.remoteApi .ingest env.ingestHttp.status env.ingestHttp.errorText),
              [.speciesListFetch, .uploadCall, .ingestCall])
      else
        (.error (.remoteApi .metadata env.metadataHttp.status env.metadataHttp.statusText),
          [.speciesListFetch])

/-! ## Remote content fetcher (`getFileContent`, github.ts / server.ts)

The whole body sits in a `try`/`catch` whose handler returns `null`, so
every thrown error (from the metadata request, the oversized-file download,
or `gunzipSync`) becomes `none`.  Library byte plumbing (base64 decode,
UTF-8 decode, gunzip) is abstracted into oracle functions on the payload
strings; `gunzipSync` may throw, hence `Except`. -/

structure ContentEntry where
  hasContentField : Bool
  typeIsFile : Bool
  content : String
  downloadUrl : Option String
deriving Repr, DecidableEq

structure DownloadResponse where
  ok : Bool
  status : Nat
  statusText : String
  body : String
deriving Repr, DecidableEq

structure FetchEnv where
  getContentResult : Except Unit ContentEntry
  downloadResult : Except Unit DownloadResponse
  decodeBase64 : String → String
  gunzip : String → Except Unit String

def getFileContent (path : String) (env : FetchEnv) : Option String :=
  match env.getContentResult with
  | .error _ => none
  | .ok data =>
    if data.hasContentField && data.typeIsFile then
      if data.content ≠ "" && jsTrim data.content ≠ "" then
        let buffer := env.decodeBase64 data.content
        if jsEndsWith path ".csv.gz" then
          match env.gunzip buffer with
          | .ok s => some s
          | .error _ => none
        else some buffer
      else
        match data.downloadUrl with
        | some _ =>
          match env.downloadResult with
          | .error _ => none
          | .ok dl =>
            if dl.ok then
              if jsEndsWith path ".csv.gz" then
                match env.gunzip dl.body with
                | .ok s => some s
                | .error _ => none
              else some dl.body
            else none
        | none => none
    else none

/-! ## Configuration reload (`loadDrMapFromGitHub` and the push handler's
drs.json branch, server.ts)

`JSON.parse` is an external library call, modelled as an oracle
`Option DrMap` (`none` = throws).  `loadDrMapFromGitHub` assigns the module
variable `drMap` only after a successful fetch and parse; the push handler
wraps it in `try`/`catch` and turns a failure into a chat notification. -/

inductive DrsNote where
  | diffReport (changes : List String)
  | loadFailure
deriving Repr, DecidableEq

def DrsNote.isFailure : DrsNote → Bool
  | .loadFailure => true
  | _ => false

/-- `loadDrMapFromGitHub`: throw when `getFileContent` gave `null`, throw
when `JSON.parse` throws, otherwise the new mapping (assigned to the module
state by the caller of this model). -/
def loadDrMapFromGitHub (content : Option String) (parse : String → Option DrMap) :
    Except Unit DrMap :=
  match content with
  | none => .error ()
  | some c =>
    match parse c with
    | none => .error ()
    | some m => .ok m

/-- The `• Added/Changed/Removed` strings pushed by the server.ts version. -/
def renderDrChangeBullet (c : DrChange) : String := "• " ++ renderDrChange c

/-- `formatDrMapChanges(oldDrMap, newDrMap)` (server.ts): a header, the
production section diff, then the testing section diff. -/
def formatDrMapChanges (oldDrMap newDrMap : DrMap) : String :=
  let prodChanges := compareDrMapSection oldDrMap.prod newDrMap.prod
  let testChanges := compareDrMapSection oldDrMap.test newDrMap.test
  "🔄 *DRS Configuration Updated*\n\n" ++
    "🏭 *Production*\n" ++
    (if prodChanges.length = 0 then "• No changes\n"
     else String.intercalate "\n" (prodChanges.map renderDrChangeBullet) ++ "\n") ++
    "\n🧪 *Testing*\n" ++
    (if testChanges.length = 0 then "• No changes\n"
     else String.intercalate "\n" (testChanges.map renderDrChangeBullet) ++ "\n")

/-- The drs.json branch of the push handler: on success the module mapping
becomes the loaded one and the diff notification is sent; on failure the
mapping is untouched and the error notification is sent (the handler does
not rethrow). -/
def handleDrsUpdate (current : DrMap) (content : Option String)
    (parse : String → Option DrMap) : DrMap × DrsNote :=
  match loadDrMapFromGitHub content parse with
  | .ok m => (m, .diffReport [formatDrMapChanges current m])
  | .error _ => (current, .loadFailure)

/-! ## Webhook push handler: added-file selection (server.ts)

`allAdded` aggregates `commit.added` over all commits of the delivery.  The
handler takes `allAdded.filter(isImportedGoogleSheetsFile).slice(0, 1)` and,
for that single candidate, enters the processing branch (content fetch,
`reloadList`, chat notifications) only when `getParentFolderName` returns a
truthy (non-empty) string. -/

structure PushCommit where
  added : List String
  modified : List String
  removed : List String
deriving Repr, DecidableEq

def aggregatedAdded (commits : List PushCommit) : List String :=
  commits.flatMap PushCommit.added

/-- `allAdded.filter(isImportedGoogleSheetsFile).slice(0, 1)`. -/
def importedGoogleSheetsAdded (allAdded : List String) : List String :=
  (allAdded.filter isImportedGoogleSheetsFile).take 1

/-- JS truthiness of `getParentFolderName(f)`: a non-null, non-empty name. -/
def hasTruthyParentFolder (f : String) : Bool :=
  match getParentFolderName f with
  | some p => p ≠ ""
  | none => false

/-- The added files for which the handler enters the processing branch —
i.e. fetches content, may call `reloadList`, and sends per-file reload
notifications.  Everything filtered out here produces no pipeline run and
no reload notification. -/
def processedAdds (allAdded : List String) : List String :=
  (importedGoogleSheetsAdded allAdded).filter hasTruthyParentFolder

/-- JS truthiness of the fetched `fileContent`: non-null and non-empty
(`if (fileContent)` is false for `null` and for the empty string). -/
def hasTruthyContent (content : String → Option String) (f : String) : Bool :=
  match content f with
  | some c => c ≠ ""
  | none => false

/-- Of the processed files, those whose content fetch yields a truthy
(non-null, non-empty) string are the ones for which `reloadList` is
actually invoked (a falsy content instead sends a failure notification). -/
def reloadedAdds (allAdded : List String) (content : String → Option String) :
    List String :=
  (processedAdds allAdded).filter (hasTruthyContent content)

/-- The pipeline run ended in a thrown error. -/
def pipelineFailed : Except PipelineError Unit → Bool
  | .error _ => true
  | .ok _ => false

/-! ## Helper lemmas about the polling loop -/

theorem pollFrom_attempts_le (resp : Nat → PollAttempt) :
    ∀ fuel attempts, (pollFrom resp attempts fuel).attempts ≤ attempts + fuel := by
  intro fuel
  induction fuel with
  | zero => intro a; simp [pollFrom, PollOutcome.attempts]
  | succ n ih =>
    intro a
    by_cases h : resp a = .progress true
    · simp [pollFrom, h, PollOutcome.attempts]
    · simp only [pollFrom, if_neg h]
      have := ih (a + 1)
      omega

theorem pollFrom_attempts_ge (resp : Nat → PollAttempt) :
    ∀ fuel attempts, attempts ≤ (pollFrom resp attempts fuel).attempts := by
  intro fuel
  induction fuel with
  | zero => intro a; simp [pollFrom, PollOutcome.attempts]
  | succ n ih =>
    intro a
    by_cases h : resp a = .progress true
    · simp [pollFrom, h, PollOutcome.attempts]
    · simp only [pollFrom, if_neg h]
      have := ih (a + 1)
      omega

theorem pollFrom_first_success (resp : Nat → PollAttempt) :
    ∀ fuel attempts k, attempts ≤ k → k < attempts + fuel →
      resp k = .progress true →
      (∀ j, attempts ≤ j → j < k → resp j ≠ .progress true) →
      pollFrom resp attempts fuel = .completed (k + 1) := by
  intro fuel
  induction fuel with
  | zero => intro a k h1 h2 _ _; omega
  | succ n ih =>
    intro a k h1 h2 hk hbefore
    rcases Nat.eq_or_lt_of_le h1 with heq | hlt
    · subst heq; simp [pollFrom, hk]
    · have hne : resp a ≠ .progress true := hbefore a (Nat.le_refl a) hlt
      simp only [pollFrom, if_neg hne]
      exact ih (a + 1) k hlt (by omega) hk
        (fun j hj1 hj2 => hbefore j (by omega) hj2)

theorem pollFrom_no_success (resp : Nat → PollAttempt) :
    ∀ fuel attempts,
      (∀ j, attempts ≤ j → j < attempts + fuel → resp j ≠ .progress true) →
      pollFrom resp attempts fuel = .timeout (attempts + fuel) MAX_WAIT_TIME_SECONDS := by
  intro fuel
  induction fuel with
  | zero => intro a _; simp [pollFrom]
  | succ n ih =>
    intro a hnone
    have hne : resp a ≠ .progress true := hnone a (Nat.le_refl a) (by omega)
    simp only [pollFrom, if_neg hne]
    have htail : pollFrom resp (a + 1) n = .timeout (a + 1 + n) MAX_WAIT_TIME_SECONDS :=
      ih (a + 1) (fun j hj1 hj2 => hnone j (by omega) (by omega))
    rw [htail]
    congr 1
    omega

theorem pollFrom_congr (resp resp' : Nat → PollAttempt) :
    ∀ fuel attempts,
      (∀ j, attempts ≤ j → j < (pollFrom resp attempts fuel).attempts → resp j = resp' j) →
      pollFrom resp' attempts fuel = pollFrom resp attempts fuel := by
  intro fuel
  induction fuel with
  | zero => intro a _; simp [pollFrom]
  | succ n ih =>
    intro a hagree
    have hlt : a < (pollFrom resp a (n + 1)).attempts := by
      by_cases h : resp a = .progress true
      · simp [pollFrom, h, PollOutcome.attempts]
      · simp only [pollFrom, if_neg h]
        have := pollFrom_attempts_ge resp n (a + 1)
        omega
    have hhead : resp a = resp' a := hagree a (Nat.le_refl a) hlt
    by_cases h : resp a = .progress true
    · have h' : resp' a = .progress true := hhead ▸ h
      simp [pollFrom, h, h']
    · have h' : ¬ resp' a = .progress true := by rw [← hhead]; exact h
      have hstep : pollFrom resp a (n + 1) = pollFrom resp (a + 1) n := by
        simp only [pollFrom, if_neg h]
      simp only [pollFrom, if_neg h, if_neg h']
      refine ih (a + 1) (fun j hj1 hj2 => hagree j (by omega) ?_)
      rw [hstep]
      exact hj2

/-- C2: the polling loop stops at the first attempt whose progress response
has `completed = true` (earlier failed or incomplete attempts — `respS j ≠
progress true` — only continue the loop, they never abort it); after 120
attempts without completion it raises the `TimeoutError` with 120 attempts
and the 600-second ceiling; the attempt count never exceeds 120; and the
outcome only depends on the attempts actually issued, so no check is made
after completion and no 121st attempt exists. -/
theorem c2_polling_terminates (respS respT respC respA respB : Nat → PollAttempt) (k : Nat)
    (hk : k < MAX_PROGRESS_ATTEMPTS)
    (hsucc : respS k = .progress true)
    (hbefore : ∀ j, j < k → respS j ≠ .progress true)
    (hTnone : ∀ j, j < MAX_PROGRESS_ATTEMPTS → respT j ≠ .progress true)
    (hagree : ∀ j, j < (waitForIngestionCompletion respA).attempts → respA j = respB j) :
    waitForIngestionCompletion respS = .completed (k + 1) ∧
    waitForIngestionCompletion respT = .timeout 120 600 ∧
    (waitForIngestionCompletion respC).attempts ≤ 120 ∧
    waitForIngestionCompletion respB = waitForIngestionCompletion respA := by
  refine ⟨?_, ?_, ?_, ?_⟩
  · exact pollFrom_first_success respS MAX_PROGRESS_ATTEMPTS 0 k (Nat.zero_le k)
      (by omega) hsucc (fun j _ hj => hbefore j hj)
  · have := pollFrom_no_success respT MAX_PROGRESS_ATTEMPTS 0
      (fun j _ hj => hTnone j (by omega))
    simpa [waitForIngestionCompletion, MAX_PROGRESS_ATTEMPTS, MAX_WAIT_TIME_SECONDS,
      PROGRESS_CHECK_INTERVAL] using this
  · have := pollFrom_attempts_le respC MAX_PROGRESS_ATTEMPTS 0
    simpa [waitForIngestionCompletion, MAX_PROGRESS_ATTEMPTS] using this
  · exact pollFrom_congr respA respB MAX_PROGRESS_ATTEMPTS 0
      (fun j _ hj => hagree j hj)

/-- C2 witness: a run where attempts 1–3 fail with HTTP 500 and attempt 4
completes, a run with 120 incomplete attempts timing out, and two runs
agreeing on the issued attempts. -/
theorem c2_polling_terminates_witness :
    waitForIngestionCompletion (fun i => if i < 3 then .httpFail 500 else .progress true) =
      .completed 4 ∧
    waitForIngestionCompletion (fun _ => .progress false) = .timeout 120 600 ∧
    (waitForIngestionCompletion (fun _ => .thrown)).attempts ≤ 120 ∧
    waitForIngestionCompletion
        (fun i => if i < 4 then (if i < 3 then .httpFail 500 else .progress true) else .thrown) =
      waitForIngestionCompletion (fun i => if i < 3 then .httpFail 500 else .progress true) :=
  c2_polling_terminates
    (fun i => if i < 3 then .httpFail 500 else .progress true)
    (fun _ => .progress false)
    (fun _ => .thrown)
    (fun i => if i < 3 then .httpFail 500 else .progress true)
    (fun i => if i < 4 then (if i < 3 then .httpFail 500 else .progress true) else .thrown)
    3 (by decide) (by decide) (by decide) (by decide) (by decide)

/-- C4: the credential-cache invariant.  With a cached token and
`now < expires_at − 5 min` the cached token is returned, the cache is
unchanged and no fetch occurs; otherwise (no cache, or inside the margin) a
fetch occurs, and on success the token from the response body is returned
and the single cached credential is overwritten with it and the absolute
expiry `now + expires_in * 1000`, while a non-ok response yields an error
carrying the status, status text and response body with the cache left
untouched.  `bufferMs = 300000` is the 5-minute margin in milliseconds. -/
theorem c4_credential_cache (t : CachedToken) (now1 : Int)
    (resp1 : TokenEndpointResponse) (st2 : Option CachedToken) (now2 : Int)
    (resp2 resp3 : TokenEndpointResponse)
    (hfresh : now1 < t.expires_at - bufferMs)
    (hstale : ∀ u, st2 = some u → ¬ now2 < u.expires_at - bufferMs)
    (hok : resp2.ok = true) (hbad : resp3.ok = false) :
    bufferMs = 5 * 60 * 1000 ∧
    getAccessToken (some t) now1 resp1 = (.ok t.access_token, some t, false) ∧
    getAccessToken st2 now2 resp2 =
      (.ok resp2.body.access_token,
        some ⟨resp2.body.access_token, now2 + resp2.body.expires_in * 1000⟩, true) ∧
    getAccessToken st2 now2 resp3 =
      (.error ⟨resp3.status, resp3.statusText, resp3.errorText⟩, st2, true) := by
  refine ⟨rfl, ?_, ?_, ?_⟩
  · simp [getAccessToken, if_pos hfresh]
  · cases st2 with
    | none => simp [getAccessToken, fetchNewToken, hok]
    | some u =>
      have := hstale u rfl
      simp [getAccessToken, if_neg this, fetchNewToken, hok]
  · cases st2 with
    | none => simp [getAccessToken, fetchNewToken, hbad]
    | some u =>
      have := hstale u rfl
      simp [getAccessToken, if_neg this, fetchNewToken, hbad]

/-- C4 witness: cached token with expiry `now + 10 min` is reused with no
fetch; a cache at `now + 4 min` (inside the margin) triggers a refresh. -/
theorem c4_credential_cache_witness :
    bufferMs = 5 * 60 * 1000 ∧
    getAccessToken (some ⟨"tokA", 600000⟩) 0 ⟨true, 200, "OK", "", ⟨"tokB", "Bearer", 3600, "s"⟩⟩ =
      (.ok "tokA", some ⟨"tokA", 600000⟩, false) ∧
    getAccessToken (some ⟨"tokA", 240000⟩) 0 ⟨true, 200, "OK", "", ⟨"tokB", "Bearer", 3600, "s"⟩⟩ =
      (.ok "tokB", some ⟨"tokB", 3600000⟩, true) ∧
    getAccessToken (some ⟨"tokA", 240000⟩) 0 ⟨false, 401, "Unauthorized", "denied", ⟨"", "", 0, ""⟩⟩ =
      (.error ⟨401, "Unauthorized", "denied"⟩, some ⟨"tokA", 240000⟩, true) :=
  c4_credential_cache ⟨"tokA", 600000⟩ 0
    ⟨true, 200, "OK", "", ⟨"tokB", "Bearer", 3600, "s"⟩⟩
    (some ⟨"tokA", 240000⟩) 0
    ⟨true, 200, "OK", "", ⟨"tokB", "Bearer", 3600, "s"⟩⟩
    ⟨false, 401, "Unauthorized", "denied", ⟨"", "", 0, ""⟩⟩
    (by decide) (by decide) (by decide) (by decide)

/-- C8: `getFileContent` is total with result `Option String` (the
`try`/`catch` wrapper turns every raised error into `null`), and each
failure shape yields `null`: a thrown metadata request (`e1`), a directory
entry (`e2`), a file with neither usable inline content nor a download URL
(`e3`), a failed download of an oversized file (`e4`), and a gzip
decompression failure (`e5`). -/
theorem c8_getFileContent_null_on_failure (path : String)
    (e1 e2 e3 e4 e5 : FetchEnv) (d2 d3 d4 d5 : ContentEntry) (u : String)
    (h1 : e1.getContentResult = .error ())
    (h2 : e2.getContentResult = .ok d2) (h2t : d2.typeIsFile = false)
    (h3 : e3.getContentResult = .ok d3) (h3f : d3.hasContentField = true)
    (h3t : d3.typeIsFile = true) (h3c : jsTrim d3.content = "")
    (h3u : d3.downloadUrl = none)
    (h4 : e4.getContentResult = .ok d4) (h4f : d4.hasContentField = true)
    (h4t : d4.typeIsFile = true) (h4c : jsTrim d4.content = "")
    (h4u : d4.downloadUrl = some u) (h4d : e4.downloadResult = .error ())
    (h5 : e5.getContentResult = .ok d5) (h5f : d5.hasContentField = true)
    (h5t : d5.typeIsFile = true) (h5c : d5.content ≠ "")
    (h5c' : jsTrim d5.content ≠ "") (h5gz : jsEndsWith path ".csv.gz" = true)
    (h5g : e5.gunzip (e5.decodeBase64 d5.content) = .error ()) :
    getFileContent path e1 = none ∧
    getFileContent path e2 = none ∧
    getFileContent path e3 = none ∧
    getFileContent path e4 = none ∧
    getFileContent path e5 = none := by
  refine ⟨?_, ?_, ?_, ?_, ?_⟩
  · simp [getFileContent, h1]
  · simp [getFileContent, h2, h2t]
  · simp [getFileContent, h3, h3f, h3t, h3c, h3u]
  · simp [getFileContent, h4, h4f, h4t, h4c, h4u, h4d]
  · simp [getFileContent, h5, h5f, h5t, h5c, h5c', h5gz, h5g]

/-- C8 witness: the five failure shapes at concrete environments. -/
theorem c8_getFileContent_null_on_failure_witness :
    getFileContent "imported_GoogleSheets/Foo/a.csv.gz"
      ⟨.error (), .error (), id, fun _ => .error ()⟩ = none ∧
    getFileContent "imported_GoogleSheets/Foo/a.csv.gz"
      ⟨.ok ⟨false, false, "", none⟩, .error (), id, fun _ => .error ()⟩ = none ∧
    getFileContent "imported_GoogleSheets/Foo/a.csv.gz"
      ⟨.ok ⟨true, true, "", none⟩, .error (), id, fun _ => .error ()⟩ = none ∧
    getFileContent "imported_GoogleSheets/Foo/a.csv.gz"
      ⟨.ok ⟨true, true, " ", some "https://example.org/a"⟩, .error (), id,
        fun _ => .error ()⟩ = none ∧
    getFileContent "imported_GoogleSheets/Foo/a.csv.gz"
      ⟨.ok ⟨true, true, "Zm9v", none⟩, .error (), id, fun _ => .error ()⟩ = none :=
  c8_getFileContent_null_on_failure "imported_GoogleSheets/Foo/a.csv.gz"
    ⟨.error (), .error (), id, fun _ => .error ()⟩
    ⟨.ok ⟨false, false, "", none⟩, .error (), id, fun _ => .error ()⟩
    ⟨.ok ⟨true, true, "", none⟩, .error (), id, fun _ => .error ()⟩
    ⟨.ok ⟨true, true, " ", some "https://example.org/a"⟩, .error (), id, fun _ => .error ()⟩
    ⟨.ok ⟨true, true, "Zm9v", none⟩, .error (), id, fun _ => .error ()⟩
    ⟨false, false, "", none⟩ ⟨true, true, "", none⟩
    ⟨true, true, " ", some "https://example.org/a"⟩ ⟨true, true, "Zm9v", none⟩
    "https://example.org/a"
    rfl rfl rfl rfl rfl rfl (by decide) rfl rfl rfl rfl (by decide) rfl rfl
    rfl rfl rfl (by decide) (by decide) (by decide) rfl

/-- C9: runtime configuration reload is atomic on failure.  When the load
fails — content unfetchable or missing (`content = none`) or unparseable
(`JSON.parse` throws, `parse c = none`) — the handler leaves the in-memory
mapping exactly as it was and reports the failure as a chat notification
instead of rethrowing or terminating. -/
theorem c9_config_reload_atomic (current : DrMap) (content : Option String)
    (parse : String → Option DrMap)
    (hfail : ∀ c, content = some c → parse c = none) :
    handleDrsUpdate current content parse = (current, .loadFailure) := by
  cases content with
  | none => simp [handleDrsUpdate, loadDrMapFromGitHub]
  | some c =>
    have := hfail c rfl
    simp [handleDrsUpdate, loadDrMapFromGitHub, this]

/-- C9 witness: an unparseable drs.json leaves a non-trivial mapping
untouched and produces the failure notification. -/
theorem c9_config_reload_atomic_witness :
    handleDrsUpdate ⟨[("Foo", "dr1")], [("Foo", "dr2")]⟩ (some "not json")
      (fun _ => none) = (⟨[("Foo", "dr1")], [("Foo", "dr2")]⟩, .loadFailure) :=
  c9_config_reload_atomic ⟨[("Foo", "dr1")], [("Foo", "dr2")]⟩ (some "not json")
    (fun _ => none) (fun _ _ => rfl)

/-- C6 counterexample: the claim says `imported_GoogleSheets/bar.csv` (no
subfolder) is rejected by the monitored-folder path filter, but
`isImportedGoogleSheetsFile` accepts it — the prefix check, the `/` check
and the `.csv` suffix check all pass on a two-segment path. -/
theorem c6_filter_accepts_two_segment_path :
    isImportedGoogleSheetsFile "imported_GoogleSheets/bar.csv" = true := by decide

/-- C6 amended: the filter accepts `imported_GoogleSheets/Foo/bar.csv`,
`imported_GoogleSheets/Foo/bar.csv.gz`, and also the no-subfolder path
`imported_GoogleSheets/bar.csv`; it rejects `other_GoogleSheets/Foo/bar.csv`.
No-subfolder paths are screened out only afterwards, by
`getParentFolderName` returning `null` for them. -/
theorem c6_filter_behavior :
    isImportedGoogleSheetsFile "imported_GoogleSheets/Foo/bar.csv" = true ∧
    isImportedGoogleSheetsFile "imported_GoogleSheets/Foo/bar.csv.gz" = true ∧
    isImportedGoogleSheetsFile "imported_GoogleSheets/bar.csv" = true ∧
    isImportedGoogleSheetsFile "other_GoogleSheets/Foo/bar.csv" = false ∧
    getParentFolderName "imported_GoogleSheets/Foo/bar.csv" = some "Foo" ∧
    getParentFolderName "imported_GoogleSheets/Foo/bar.csv.gz" = some "Foo" ∧
    getParentFolderName "imported_GoogleSheets/bar.csv" = none := by decide

/-- C10: when the first filter-matching added path of a delivery has exactly
two slash-separated segments, the filter accepts it but the parent-folder
extraction returns `null`; the delivery therefore enters the processing
branch for no file — no pipeline run, no reload notification — and, the
single `slice(0, 1)` slot being consumed, any later well-formed addition in
the same delivery is not processed either. -/
theorem c10_two_segment_first_match_blocks_delivery (allAdded : List String)
    (p : String) (content : String → Option String)
    (hfirst : (allAdded.filter isImportedGoogleSheetsFile).head? = some p)
    (hsegs : (jsSplitOnSlash p).length = 2) :
    isImportedGoogleSheetsFile p = true ∧
    getParentFolderName p = none ∧
    processedAdds allAdded = [] ∧
    reloadedAdds allAdded content = [] := by
  cases hf : allAdded.filter isImportedGoogleSheetsFile with
  | nil => rw [hf] at hfirst; exact absurd hfirst (by simp)
  | cons a l =>
    rw [hf] at hfirst
    have hpa : a = p := by simpa using hfirst
    subst hpa
    have himp : isImportedGoogleSheetsFile a = true := by
      have hmem : a ∈ allAdded.filter isImportedGoogleSheetsFile := by
        rw [hf]; exact List.mem_cons_self a l
      exact (List.mem_filter.mp hmem).2
    have hparent : getParentFolderName a = none := by
      rcases hl : jsSplitOnSlash a with _ | ⟨x, _ | ⟨y, _ | ⟨z, t⟩⟩⟩
      · rw [hl] at hsegs; simp at hsegs
      · rw [hl] at hsegs; simp at hsegs
      · simp [getParentFolderName, himp, hl]
      · rw [hl] at hsegs; simp at hsegs
    have htruthy : hasTruthyParentFolder a = false := by
      simp [hasTruthyParentFolder, hparent]
    have hproc : processedAdds allAdded = [] := by
      simp [processedAdds, importedGoogleSheetsAdded, hf, htruthy]
    exact ⟨himp, hparent, hproc, by simp [reloadedAdds, hproc]⟩

/-- C10 witness: a delivery adding the two-segment
`imported_GoogleSheets/bar.csv` first and the well-formed
`imported_GoogleSheets/Foo/baz.csv` afterwards processes neither. -/
theorem c10_two_segment_first_match_blocks_delivery_witness :
    isImportedGoogleSheetsFile "imported_GoogleSheets/bar.csv" = true ∧
    getParentFolderName "imported_GoogleSheets/bar.csv" = none ∧
    processedAdds ["imported_GoogleSheets/bar.csv", "imported_GoogleSheets/Foo/baz.csv"] = [] ∧
    reloadedAdds ["imported_GoogleSheets/bar.csv", "imported_GoogleSheets/Foo/baz.csv"]
      (fun _ => some "taxon,count") = [] :=
  c10_two_segment_first_match_blocks_delivery
    ["imported_GoogleSheets/bar.csv", "imported_GoogleSheets/Foo/baz.csv"]
    "imported_GoogleSheets/bar.csv" (fun _ => some "taxon,count")
    (by decide) (by decide)

/-- C7 counterexample: a delivery adding two filter-matching files
(`imported_GoogleSheets/bar.csv` first, then
`imported_GoogleSheets/Foo/baz.csv`) processes zero files, not "exactly
one": the first match takes the single slot and then fails the
parent-folder check. -/
theorem c7_two_matches_zero_processed :
    isImportedGoogleSheetsFile "imported_GoogleSheets/bar.csv" = true ∧
    isImportedGoogleSheetsFile "imported_GoogleSheets/Foo/baz.csv" = true ∧
    processedAdds ["imported_GoogleSheets/bar.csv", "imported_GoogleSheets/Foo/baz.csv"] = [] ∧
    reloadedAdds ["imported_GoogleSheets/bar.csv", "imported_GoogleSheets/Foo/baz.csv"]
      (fun _ => some "taxon,count") = [] := by decide

/-- C7 amended: per delivery at most one added file is processed; only the
first filter-matching added file is eligible, and it is processed
end-to-end precisely when its parent-folder extraction yields a truthy name
and its content fetch yields a truthy (non-null, non-empty) content (so a
malformed first match means nothing is processed, as the counterexample
shows). -/
theorem c7_at_most_one_processed (allAdded allAddedB : List String) (f : String)
    (content : String → Option String)
    (hfirst : (allAdded.filter isImportedGoogleSheetsFile).head? = some f)
    (hparent : hasTruthyParentFolder f = true)
    (hcontent : hasTruthyContent content f = true) :
    (processedAdds allAddedB).length ≤ 1 ∧
    processedAdds allAdded = [f] ∧
    reloadedAdds allAdded content = [f] := by
  have hone : (processedAdds allAddedB).length ≤ 1 := by
    have h1 : (processedAdds allAddedB).length ≤ (importedGoogleSheetsAdded allAddedB).length :=
      List.length_filter_le _ _
    have h2 : (importedGoogleSheetsAdded allAddedB).length ≤ 1 :=
      List.length_take_le _ _
    omega
  have hp : processedAdds allAdded = [f] := by
    cases hf : allAdded.filter isImportedGoogleSheetsFile with
    | nil => rw [hf] at hfirst; exact absurd hfirst (by simp)
    | cons a l =>
      rw [hf] at hfirst
      have hpa : a = f := by simpa using hfirst
      subst hpa
      simp [processedAdds, importedGoogleSheetsAdded, hf, hparent]
  exact ⟨hone, hp, by simp [reloadedAdds, hp, hcontent]⟩

/-- C7 witness: a delivery whose sole matching addition is well-formed
processes exactly that file; a two-match delivery still processes at most
one. -/
theorem c7_at_most_one_processed_witness :
    (processedAdds ["imported_GoogleSheets/A/a.csv", "imported_GoogleSheets/B/b.csv"]).length ≤ 1 ∧
    processedAdds ["README.md", "imported_GoogleSheets/Foo/a.csv"] =
      ["imported_GoogleSheets/Foo/a.csv"] ∧
    reloadedAdds ["README.md", "imported_GoogleSheets/Foo/a.csv"]
      (fun _ => some "taxon,count") = ["imported_GoogleSheets/Foo/a.csv"] :=
  c7_at_most_one_processed ["README.md", "imported_GoogleSheets/Foo/a.csv"]
    ["imported_GoogleSheets/A/a.csv", "imported_GoogleSheets/B/b.csv"]
    "imported_GoogleSheets/Foo/a.csv" (fun _ => some "taxon,count")
    (by decide) (by decide) (by decide)

/-! ## C1: unknown-list failure -/

/-- Production-environment run (`LISTS_API_ENDPOINT` without `.test`) whose
list name has no entry in either partition; the test partition holds
`Known_list` while the prod partition holds `Other`. -/
def c1Env : PipelineEnv :=
  ⟨"https://lists.ala.org.au",
    ⟨[("Other", "drO")], [("Known_list", "dr1")]⟩, "Foo", none, 0,
    ⟨true, 200, "OK", "", ⟨"tok", "Bearer", 3600, "s"⟩⟩,
    ⟨true, 200, "OK", ""⟩, ⟨"id1", "dr1", "T", 1, 0⟩,
    ⟨true, 200, "OK", ""⟩, ⟨"tmp.csv", 0, none⟩,
    ⟨true, 200, "OK", ""⟩, fun _ => .progress true⟩

/-- C1 counterexample: in the production environment the unknown-list error
reports the *test* partition's names (`Known_list`), not the names of the
selected environment (whose partition holds `Other`), contradicting
"the available list names in that environment". -/
theorem c1_available_names_not_from_environment :
    jsIncludes c1Env.endpoint ".test" = false ∧
    reloadList c1Env = (.error (.unknownList "Foo" ["Known_list"]), []) ∧
    sectionKeys c1Env.drMap.prod = ["Other"] ∧
    (["Known_list"] : List String) ≠ ["Other"] := by decide

/-- C1 amended: when the initial token acquisition succeeds and the list
name has no entry in the partition selected by the environment (endpoint
containing `.test` selects `test`, else `prod`), the run fails with the
unknown-list error naming the list and the available names of the *test*
partition (whatever the environment), and no list-management API call is
issued for that run (empty call trace). -/
theorem c1_unknown_list_fails_without_api_calls (env : PipelineEnv) (tok : String)
    (htok : (getAccessToken env.cachedToken env.now env.tokenResp).1 = .ok tok)
    (hmissing : lookupKey
      (if jsIncludes env.endpoint ".test" then env.drMap.test else env.drMap.prod)
      env.parentFolderName = none) :
    reloadList env =
      (.error (.unknownList env.parentFolderName (sectionKeys env.drMap.test)), []) := by
  have hres : resolveDataResourceUid env.endpoint env.drMap env.parentFolderName =
      .error (.unknownList env.parentFolderName (sectionKeys env.drMap.test)) := by
    simp [resolveDataResourceUid, hmissing]
  rcases hg : getAccessToken env.cachedToken env.now env.tokenResp with ⟨r, st2, b2⟩
  rw [hg] at htok
  simp only at htok
  subst htok
  simp [reloadList, hg, hres]

/-- C1 witness: the production-environment run above, where the selected
partition lacks `Foo`. -/
theorem c1_unknown_list_fails_without_api_calls_witness :
    reloadList c1Env = (.error (.unknownList "Foo" ["Known_list"]), []) :=
  c1_unknown_list_fails_without_api_calls c1Env "tok" (by decide) (by decide)

/-! ## C3: validation errors abort before ingest -/

/-- A run whose upload call returns HTTP 500 with a body carrying one
validation error (all earlier stages succeed). -/
def c3Env : PipelineEnv :=
  ⟨"https://lists.test.ala.org.au",
    ⟨[], [("Foo", "dr1")]⟩, "Foo", none, 0,
    ⟨true, 200, "OK", "", ⟨"tok", "Bearer", 3600, "s"⟩⟩,
    ⟨true, 200, "OK", ""⟩, ⟨"id1", "dr1", "T", 1, 0⟩,
    ⟨false, 500, "Internal Server Error", "boom"⟩,
    ⟨"tmp.csv", 0, some ["row 1 bad"]⟩,
    ⟨true, 200, "OK", ""⟩, fun _ => .progress true⟩

/-- A run identical to `c3Env` but whose upload call succeeds at the HTTP
level while its body carries two validation errors. -/
def c3EnvOk : PipelineEnv :=
  ⟨"https://lists.test.ala.org.au",
    ⟨[], [("Foo", "dr1")]⟩, "Foo", none, 0,
    ⟨true, 200, "OK", "", ⟨"tok", "Bearer", 3600, "s"⟩⟩,
    ⟨true, 200, "OK", ""⟩, ⟨"id1", "dr1", "T", 1, 0⟩,
    ⟨true, 200, "OK", ""⟩,
    ⟨"tmp.csv", 0, some ["row 1 bad", "row 2 bad"]⟩,
    ⟨true, 200, "OK", ""⟩, fun _ => .progress true⟩

/-- C3 counterexample: an upload response with a non-empty validation-error
list but a non-success HTTP status makes the pipeline fail with the generic
upload HTTP error — the body is never parsed — not with a `ValidationError`,
contradicting "fails with a ValidationError ... regardless of the HTTP
status of the upload call". -/
theorem c3_nonok_upload_is_not_validation_error :
    c3Env.uploadBody.validationErrors = some ["row 1 bad"] ∧
    reloadList c3Env =
      (.error (.remoteApi .upload 500 "boom"), [.speciesListFetch, .uploadCall]) ∧
    PipelineError.isValidation (.remoteApi .upload 500 "boom") = false := by decide

/-- C3 amended: an upload response with a non-empty validation-error list
always makes the pipeline fail with neither the ingest call nor any progress
poll issued, regardless of the upload HTTP status; when the upload HTTP
status is a success (and the earlier stages proceeded), the failure is the
`ValidationError` whose messages are the errors numbered `1. `, `2. `, ….
-/
theorem c3_validation_errors_block_ingest (env env2 : PipelineEnv)
    (errs errs2 : List String) (tok uid : String) (i : Nat)
    (hv : env.uploadBody.validationErrors = some errs) (hne : errs ≠ [])
    (hv2 : env2.uploadBody.validationErrors = some errs2) (hne2 : errs2 ≠ [])
    (htok : (getAccessToken env2.cachedToken env2.now env2.tokenResp).1 = .ok tok)
    (hres : resolveDataResourceUid env2.endpoint env2.drMap env2.parentFolderName = .ok uid)
    (hmeta : env2.metadataHttp.ok = true)
    (hup : env2.uploadHttp.ok = true) :
    pipelineFailed (reloadList env).1 = true ∧
    ListApiCall.ingestCall ∉ (reloadList env).2 ∧
    ListApiCall.progressCall ∉ (reloadList env).2 ∧
    (reloadList env2).1 = .error (.validation (numberedMessages errs2)) ∧
    (numberedMessages errs2).length = errs2.length ∧
    (numberedMessages errs2)[i]? = errs2[i]?.map (fun e => toString (i + 1) ++ ". " ++ e) := by
  have hpos : 0 < errs.length := List.length_pos.mpr hne
  have hupErr : ∃ e0, uploadFileContent env.uploadHttp env.uploadBody = .error e0 := by
    by_cases h : env.uploadHttp.ok = true
    · exact ⟨.validation (numberedMessages errs), by simp [uploadFileContent, h, hv, hpos]⟩
    · exact ⟨.remoteApi .upload env.uploadHttp.status env.uploadHttp.errorText,
        by simp [uploadFileContent, h]⟩
  obtain ⟨e0, he0⟩ := hupErr
  have hgeneral : pipelineFailed (reloadList env).1 = true ∧
      ListApiCall.ingestCall ∉ (reloadList env).2 ∧
      ListApiCall.progressCall ∉ (reloadList env).2 := by
    rcases hg : getAccessToken env.cachedToken env.now env.tokenResp with ⟨r, st2, b2⟩
    cases r with
    | error e => simp [reloadList, hg, pipelineFailed]
    | ok t =>
      cases hr : resolveDataResourceUid env.endpoint env.drMap env.parentFolderName with
      | error e => simp [reloadList, hg, hr, pipelineFailed]
      | ok u =>
        by_cases hm : env.metadataHttp.ok = true
        · simp [reloadList, hg, hr, hm, he0, pipelineFailed]
        · simp [reloadList, hg, hr, hm, pipelineFailed]
  have hpos2 : 0 < errs2.length := List.length_pos.mpr hne2
  have hupVal : uploadFileContent env2.uploadHttp env2.uploadBody =
      .error (.validation (numberedMessages errs2)) := by
    simp [uploadFileContent, hup, hv2, hpos2]
  have hrun2 : (reloadList env2).1 = .error (.validation (numberedMessages errs2)) := by
    rcases hg2 : getAccessToken env2.cachedToken env2.now env2.tokenResp with ⟨r2, st2, b2⟩
    rw [hg2] at htok
    simp only at htok
    subst htok
    simp [reloadList, hg2, hres, hmeta, hupVal]
  refine ⟨hgeneral.1, hgeneral.2.1, hgeneral.2.2, hrun2, ?_, ?_⟩
  · simp [numberedMessages, List.enum_length]
  · simp only [numberedMessages, List.getElem?_map, List.getElem?_enum]
    cases errs2[i]? <;> simp

/-- C3 witness: the HTTP-500-with-errors run fails without ingest or
progress calls, and the HTTP-200-with-errors run fails with the numbered
`ValidationError`. -/
theorem c3_validation_errors_block_ingest_witness :
    pipelineFailed (reloadList c3Env).1 = true ∧
    ListApiCall.ingestCall ∉ (reloadList c3Env).2 ∧
    ListApiCall.progressCall ∉ (reloadList c3Env).2 ∧
    (reloadList c3EnvOk).1 =
      .error (.validation (numberedMessages ["row 1 bad", "row 2 bad"])) ∧
    (numberedMessages ["row 1 bad", "row 2 bad"]).length = 2 ∧
    (numberedMessages ["row 1 bad", "row 2 bad"])[1]? =
      (["row 1 bad", "row 2 bad"] : List String)[1]?.map
        (fun e => toString (1 + 1) ++ ". " ++ e) :=
  c3_validation_errors_block_ingest c3Env c3EnvOk ["row 1 bad"]
    ["row 1 bad", "row 2 bad"] "tok" "dr1" 1
    (by decide) (by decide) (by decide) (by decide) (by decide) (by decide)
    (by decide) (by decide)

/-! ## C5: configuration diff — helper lemmas -/

theorem lookupKey_eq_none_iff (sec : List (String × String)) (k : String) :
    lookupKey sec k = none ↔ k ∉ sectionKeys sec := by
  induction sec with
  | nil => simp [lookupKey, sectionKeys]
  | cons q rest ih =>
    obtain ⟨k', v⟩ := q
    by_cases h : k' = k
    · subst h; simp [lookupKey, sectionKeys]
    · have h2 : ¬ k = k' := fun he => h he.symm
      simp [lookupKey, h, sectionKeys, ih, h2]

theorem lookupKey_self (sec : List (String × String))
    (hnd : (sectionKeys sec).Nodup) :
    ∀ p ∈ sec, lookupKey sec p.1 = some p.2 := by
  induction sec with
  | nil => simp
  | cons q rest ih =>
    obtain ⟨k', v⟩ := q
    simp only [sectionKeys, List.map_cons, List.nodup_cons] at hnd
    obtain ⟨hknotin, hndrest⟩ := hnd
    intro p hp
    rcases List.mem_cons.mp hp with heq | hmem
    · subst heq; simp [lookupKey]
    · obtain ⟨pk, pv⟩ := p
      by_cases h : k' = pk
      · exact absurd (List.mem_map.mpr ⟨(pk, pv), hmem, h.symm⟩) hknotin
      · simpa [lookupKey, h] using ih hndrest (pk, pv) hmem

theorem filter_key_of_lookupKey_none (sec : List (String × String)) (k : String)
    (h : lookupKey sec k = none) : sec.filter (fun p => p.1 = k) = [] := by
  induction sec with
  | nil => simp
  | cons q rest ih =>
    obtain ⟨k', v⟩ := q
    by_cases hk : k' = k
    · subst hk; simp [lookupKey] at h
    · simp only [lookupKey, if_neg hk] at h
      simp [List.filter_cons, hk, ih h]

theorem filter_key_of_lookupKey_some (sec : List (String × String)) (k v : String)
    (hnd : (sectionKeys sec).Nodup) (h : lookupKey sec k = some v) :
    sec.filter (fun p => p.1 = k) = [(k, v)] := by
  induction sec with
  | nil => simp [lookupKey] at h
  | cons q rest ih =>
    obtain ⟨k', v'⟩ := q
    simp only [sectionKeys, List.map_cons, List.nodup_cons] at hnd
    obtain ⟨hknotin, hndrest⟩ := hnd
    by_cases hk : k' = k
    · subst hk
      simp only [lookupKey, if_pos rfl] at h
      injection h with hv
      subst hv
      have hrest : lookupKey rest k' = none :=
        (lookupKey_eq_none_iff rest k').mpr hknotin
      simp [List.filter_cons, filter_key_of_lookupKey_none rest k' hrest]
    · simp only [lookupKey, if_neg hk] at h
      simp [List.filter_cons, hk, ih hndrest h]

theorem addedOrChanged_spec (oldS : List (String × String)) (p : String × String)
    (c : DrChange) (h : addedOrChanged oldS p = some c) :
    c.key = p.1 ∧ c.isRemoval = false := by
  unfold addedOrChanged at h
  cases hl : lookupKey oldS p.1 with
  | none =>
    rw [hl] at h
    injection h with h'
    subst h'
    simp [DrChange.key, DrChange.isRemoval]
  | some w =>
    rw [hl] at h
    by_cases hw : w = p.2
    · simp [hw] at h
    · simp [hw] at h
      subst h
      simp [DrChange.key, DrChange.isRemoval]

theorem removedEntry_spec (newS : List (String × String)) (p : String × String)
    (c : DrChange) (h : removedEntry newS p = some c) :
    c.key = p.1 ∧ c.isRemoval = true := by
  unfold removedEntry at h
  cases hl : lookupKey newS p.1 with
  | none =>
    rw [hl] at h
    injection h with h'
    subst h'
    simp [DrChange.key, DrChange.isRemoval]
  | some w =>
    rw [hl] at h
    exact absurd h (by simp)

theorem filter_key_filterMap (f : String × String → Option DrChange)
    (hf : ∀ p c, f p = some c → c.key = p.1)
    (l : List (String × String)) (k : String) :
    (l.filterMap f).filter (fun c => c.key = k) =
      (l.filter (fun p => p.1 = k)).filterMap f := by
  induction l with
  | nil => simp
  | cons p rest ih =>
    cases hfp : f p with
    | none =>
      by_cases hk : p.1 = k
      · simp [List.filterMap_cons, hfp, List.filter_cons, hk, ih]
      · simp [List.filterMap_cons, hfp, List.filter_cons, hk, ih]
    | some c =>
      have hkey := hf p c hfp
      by_cases hk : p.1 = k
      · simp [List.filterMap_cons, hfp, List.filter_cons, hk, hkey, ih]
      · simp [List.filterMap_cons, hfp, List.filter_cons, hk, hkey, ih]

theorem filterMap_key_sublist (f : String × String → Option DrChange)
    (hf : ∀ p c, f p = some c → c.key = p.1) (l : List (String × String)) :
    List.Sublist ((l.filterMap f).map DrChange.key) (sectionKeys l) := by
  induction l with
  | nil => simp [sectionKeys]
  | cons p rest ih =>
    cases hfp : f p with
    | none =>
      simp only [List.filterMap_cons, hfp, sectionKeys, List.map_cons]
      exact List.Sublist.cons p.1 ih
    | some c =>
      have hkey := hf p c hfp
      simp only [List.filterMap_cons, hfp, sectionKeys, List.map_cons, hkey]
      exact List.Sublist.cons₂ p.1 ih

theorem compareDrMapSection_parts (oldS newS : List (String × String)) :
    (compareDrMapSection oldS newS).filter (fun c => !c.isRemoval) =
      newS.filterMap (addedOrChanged oldS) ∧
    (compareDrMapSection oldS newS).filter (fun c => c.isRemoval) =
      oldS.filterMap (removedEntry newS) := by
  constructor
  · unfold compareDrMapSection
    rw [List.filter_append]
    have h1 : (newS.filterMap (addedOrChanged oldS)).filter (fun c => !c.isRemoval) =
        newS.filterMap (addedOrChanged oldS) :=
      List.filter_eq_self.mpr (fun c hc => by
        obtain ⟨p, _, hfp⟩ := List.mem_filterMap.mp hc
        simp [(addedOrChanged_spec oldS p c hfp).2])
    have h2 : (oldS.filterMap (removedEntry newS)).filter (fun c => !c.isRemoval) = [] :=
      List.filter_eq_nil_iff.mpr (fun c hc => by
        obtain ⟨p, _, hfp⟩ := List.mem_filterMap.mp hc
        simp [(removedEntry_spec newS p c hfp).2])
    rw [h1, h2, List.append_nil]
  · unfold compareDrMapSection
    rw [List.filter_append]
    have h1 : (newS.filterMap (addedOrChanged oldS)).filter (fun c => c.isRemoval) = [] :=
      List.filter_eq_nil_iff.mpr (fun c hc => by
        obtain ⟨p, _, hfp⟩ := List.mem_filterMap.mp hc
        simp [(addedOrChanged_spec oldS p c hfp).2])
    have h2 : (oldS.filterMap (removedEntry newS)).filter (fun c => c.isRemoval) =
        oldS.filterMap (removedEntry newS) :=
      List.filter_eq_self.mpr (fun c hc => by
        obtain ⟨p, _, hfp⟩ := List.mem_filterMap.mp hc
        simp [(removedEntry_spec newS p c hfp).2])
    rw [h1, h2, List.nil_append]

/-- C5: per partition, for mappings with unique keys (JS objects), the diff
contains exactly one `added` entry for a key solely in `new`, exactly one
`changed` entry recording both values for a key in both with differing
values, exactly one `removed` entry for a key solely in `old`, and no entry
for a key whose values agree; the diff of a mapping with itself is empty;
additions and changes come first in the iteration order of `new`'s entries
(their keys form a sublist of `new`'s key sequence), followed by removals
in the iteration order of `old`'s entries. -/
theorem c5_compareDrMapSection_correct (oldS newS : List (String × String))
    (k v w : String)
    (hOld : (sectionKeys oldS).Nodup) (hNew : (sectionKeys newS).Nodup) :
    (lookupKey newS k = some v → lookupKey oldS k = none →
      (compareDrMapSection oldS newS).filter (fun c => c.key = k) = [.added k v]) ∧
    (lookupKey oldS k = some w → lookupKey newS k = some v → w ≠ v →
      (compareDrMapSection oldS newS).filter (fun c => c.key = k) = [.changed k w v]) ∧
    (lookupKey oldS k = some v → lookupKey newS k = none →
      (compareDrMapSection oldS newS).filter (fun c => c.key = k) = [.removed k v]) ∧
    (lookupKey oldS k = some v → lookupKey newS k = some v →
      (compareDrMapSection oldS newS).filter (fun c => c.key = k) = []) ∧
    compareDrMapSection oldS oldS = [] ∧
    compareDrMapSection oldS newS =
      (compareDrMapSection oldS newS).filter (fun c => !c.isRemoval) ++
        (compareDrMapSection oldS newS).filter (fun c => c.isRemoval) ∧
    List.Sublist
      (((compareDrMapSection oldS newS).filter (fun c => !c.isRemoval)).map DrChange.key)
      (sectionKeys newS) ∧
    List.Sublist
      (((compareDrMapSection oldS newS).filter (fun c => c.isRemoval)).map DrChange.key)
      (sectionKeys oldS) := by
  have hACkey : ∀ p c, addedOrChanged oldS p = some c → DrChange.key c = p.1 :=
    fun p c h => (addedOrChanged_spec oldS p c h).1
  have hRkey : ∀ p c, removedEntry newS p = some c → DrChange.key c = p.1 :=
    fun p c h => (removedEntry_spec newS p c h).1
  have hsplit : (compareDrMapSection oldS newS).filter (fun c => c.key = k) =
      (newS.filter (fun p => p.1 = k)).filterMap (addedOrChanged oldS) ++
        (oldS.filter (fun p => p.1 = k)).filterMap (removedEntry newS) := by
    unfold compareDrMapSection
    rw [List.filter_append, filter_key_filterMap _ hACkey, filter_key_filterMap _ hRkey]
  obtain ⟨hpart1, hpart2⟩ := compareDrMapSection_parts oldS newS
  refine ⟨?_, ?_, ?_, ?_, ?_, ?_, ?_, ?_⟩
  · intro hnew hold
    rw [hsplit, filter_key_of_lookupKey_some newS k v hNew hnew,
      filter_key_of_lookupKey_none oldS k hold]
    simp [addedOrChanged, hold]
  · intro hold hnew hwv
    rw [hsplit, filter_key_of_lookupKey_some newS k v hNew hnew,
      filter_key_of_lookupKey_some oldS k w hOld hold]
    simp [addedOrChanged, removedEntry, hold, hnew, hwv]
  · intro hold hnew
    rw [hsplit, filter_key_of_lookupKey_none newS k hnew,
      filter_key_of_lookupKey_some oldS k v hOld hold]
    simp [removedEntry, hnew]
  · intro hold hnew
    rw [hsplit, filter_key_of_lookupKey_some newS k v hNew hnew,
      filter_key_of_lookupKey_some oldS k v hOld hold]
    simp [addedOrChanged, removedEntry, hold, hnew]
  · unfold compareDrMapSection
    have h1 : oldS.filterMap (addedOrChanged oldS) = [] :=
      List.filterMap_eq_nil_iff.mpr (fun p hp => by
        simp [addedOrChanged, lookupKey_self oldS hOld p hp])
    have h2 : oldS.filterMap (removedEntry oldS) = [] :=
      List.filterMap_eq_nil_iff.mpr (fun p hp => by
        simp [removedEntry, lookupKey_self oldS hOld p hp])
    rw [h1, h2, List.append_nil]
  · rw [hpart1, hpart2]; rfl
  · rw [hpart1]; exact filterMap_key_sublist _ hACkey newS
  · rw [hpart2]; exact filterMap_key_sublist _ hRkey oldS

/-- C5 witness: `old = {A:1, B:2, C:3}`, `new = {A:1, B:9, D:4}` at key `B`
(changed from 2 to 9); both key sequences are duplicate-free. -/
theorem c5_compareDrMapSection_correct_witness :
    (lookupKey [("A", "1"), ("B", "9"), ("D", "4")] "B" = some "9" →
      lookupKey [("A", "1"), ("B", "2"), ("C", "3")] "B" = none →
      (compareDrMapSection [("A", "1"), ("B", "2"), ("C", "3")]
        [("A", "1"), ("B", "9"), ("D", "4")]).filter (fun c => c.key = "B") =
        [.added "B" "9"]) ∧
    (lookupKey [("A", "1"), ("B", "2"), ("C", "3")] "B" = some "2" →
      lookupKey [("A", "1"), ("B", "9"), ("D", "4")] "B" = some "9" → "2" ≠ "9" →
      (compareDrMapSection [("A", "1"), ("B", "2"), ("C", "3")]
        [("A", "1"), ("B", "9"), ("D", "4")]).filter (fun c => c.key = "B") =
        [.changed "B" "2" "9"]) ∧
    (lookupKey [("A", "1"), ("B", "2"), ("C", "3")] "B" = some "9" →
      lookupKey [("A", "1"), ("B", "9"), ("D", "4")] "B" = none →
      (compareDrMapSection [("A", "1"), ("B", "2"), ("C", "3")]
        [("A", "1"), ("B", "9"), ("D", "4")]).filter (fun c => c.key = "B") =
        [.removed "B" "9"]) ∧
    (lookupKey [("A", "1"), ("B", "2"), ("C", "3")] "B" = some "9" →
      lookupKey [("A", "1"), ("B", "9"), ("D", "4")] "B" = some "9" →
      (compareDrMapSection [("A", "1"), ("B", "2"), ("C", "3")]
        [("A", "1"), ("B", "9"), ("D", "4")]).filter (fun c => c.key = "B") = []) ∧
    compareDrMapSection [("A", "1"), ("B", "2"), ("C", "3")]
      [("A", "1"), ("B", "2"), ("C", "3")] = [] ∧
    compareDrMapSection [("A", "1"), ("B", "2"), ("C", "3")]
        [("A", "1"), ("B", "9"), ("D", "4")] =
      (compareDrMapSection [("A", "1"), ("B", "2"), ("C", "3")]
        [("A", "1"), ("B", "9"), ("D", "4")]).filter (fun c => !c.isRemoval) ++
        (compareDrMapSection [("A", "1"), ("B", "2"), ("C", "3")]
          [("A", "1"), ("B", "9"), ("D", "4")]).filter (fun c => c.isRemoval) ∧
    List.Sublist
      (((compareDrMapSection [("A", "1"), ("B", "2"), ("C", "3")]
        [("A", "1"), ("B", "9"), ("D", "4")]).filter (fun c => !c.isRemoval)).map
        DrChange.key)
      (sectionKeys [("A", "1"), ("B", "9"), ("D", "4")]) ∧
    List.Sublist
      (((compareDrMapSection [("A", "1"), ("B", "2"), ("C", "3")]
        [("A", "1"), ("B", "9"), ("D", "4")]).filter (fun c => c.isRemoval)).map
        DrChange.key)
      (sectionKeys [("A", "1"), ("B", "2"), ("C", "3")]) :=
  c5_compareDrMapSection_correct [("A", "1"), ("B", "2"), ("C", "3")]
    [("A", "1"), ("B", "9"), ("D", "4")] "B" "9" "2" (by decide) (by decide)

end ArgaLists
